import Mathlib

/-
Verification of the cloup repository (a layer of option groups, parameter
constraints and help formatting over the click CLI framework).

This file shallowly embeds the Python code of the repository:

 - cloup/_params.py        : Option.__init__ nargs handling, the parser
                             process wrapper for nargs = -1
 - cloup/_option_groups.py : OptionGroup, its options setter,
                             OptionGroupMixin (_group_params, format_params,
                             parse_args), the @option_group decorator
 - cloup/types.py          : Integer.convert and DateTime.convert, with the
                             calls into the host library (click) recorded
                             as events
 - cloup/constraints       : only the package __init__ is in the sources;
                             the engine itself (param_value_is_set, the
                             rule objects, ConstraintMixin) is modelled
                             from the spec and from the test file
                             src/tests/constraints/test_common.py.

Python objects become Lean structures; mutation becomes explicit state
passing; exceptions become Except values.
-/

namespace Cloup

/-! ## Parameter values and the "is set" predicate -/

/-- A parsed parameter value as the constraint engine sees it. `none`
mirrors Python's `None`. -/
inductive PValue where
  | none
  | str (s : String)
  | int (n : Int)
  | bool (b : Bool)
  | tuple (xs : List Int)
deriving DecidableEq

/-- The shape of a click parameter, as far as the "is set" predicate needs
it: whether it is a boolean flag, whether it is a `multiple` option, and
its `nargs`. -/
structure ParamModel where
  is_bool_flag : Bool
  multiple : Bool
  nargs : Nat
deriving DecidableEq

/-- Modelled from the spec: `param_value_is_set` lives in
`cloup/constraints/common.py`, which is not among the sources; only its
test (src/tests/constraints/test_common.py) is. The behaviour is
reconstructed from that test: `None` is never set; a flag is set iff its
value is truthy; a `multiple` option or an option with `nargs != 1` is set
iff its tuple value is non-empty; every other non-None value (including
`0` and a non-flag boolean `False`) counts as set. -/
def param_value_is_set (p : ParamModel) (v : PValue) : Bool :=
  match v with
  | PValue.none => false
  | PValue.bool b => if p.is_bool_flag then b else true
  | PValue.tuple xs => if p.multiple || p.nargs != 1 then decide (xs ≠ []) else true
  | _ => true

/-- Shape of a plain (e.g. integer-typed) option: from tests/util. -/
def int_opt : ParamModel := { is_bool_flag := false, multiple := false, nargs := 1 }

/-- Shape of a non-flag boolean option: from tests/util. -/
def bool_opt : ParamModel := { is_bool_flag := false, multiple := false, nargs := 1 }

/-- Shape of a flag option: from tests/util. -/
def flag_opt : ParamModel := { is_bool_flag := true, multiple := false, nargs := 1 }

/-- Shape of a tuple-typed option (nargs = 2): from tests/util. -/
def tuple_opt : ParamModel := { is_bool_flag := false, multiple := false, nargs := 2 }

/-- Shape of an option with multiple = True: from tests/util. -/
def multi_opt : ParamModel := { is_bool_flag := false, multiple := true, nargs := 1 }

/-! ## Constraint engine (modelled from the spec)

The modules `cloup/constraints/_core.py`, `_support.py` and
`conditions.py` are not among the sources; only the package __init__ and
the callers are. The rule engine below is modelled from the spec: rules
such as "accept at most one of A, B, C" and "require all of X, Y when Z
is set", boolean composition of rules, a `ConstraintViolated` error
raised when a rule fails after parsing. -/

/-- A parameter a constraint is bound to: its name and its shape. -/
structure CParam where
  name : String
  kind : ParamModel
deriving DecidableEq

/-- The parsed values a command's parameters received, keyed by parameter
name. -/
abbrev Values := List (String × PValue)

/-- Value of a named parameter; a missing name counts as `None`. -/
def lookupValue (vals : Values) (n : String) : PValue :=
  match vals.lookup n with
  | some v => v
  | Option.none => PValue.none

/-- Whether the named parameter is set in the parsed values. -/
def isSetIn (vals : Values) (p : CParam) : Bool :=
  param_value_is_set p.kind (lookupValue vals p.name)

/-- Number of bound parameters that are set. -/
def countSet (vals : Values) (ps : List CParam) : Nat :=
  (ps.filter (fun p => isSetIn vals p)).length

/-- Modelled from the spec: the constraint rule language — "accept at most
n", "require all", a conditional rule guarded by another parameter being
set, and boolean composition. -/
inductive ConstraintRule where
  | acceptAtMost (n : Nat)
  | requireAll
  | ifCond (cond : CParam) (thenRule elseRule : ConstraintRule)
  | both (a b : ConstraintRule)
  | either (a b : ConstraintRule)
deriving DecidableEq

/-- Modelled from the spec: `mutually_exclusive` accepts at most one of
the bound parameters. -/
def mutually_exclusive : ConstraintRule := ConstraintRule.acceptAtMost 1

/-- Modelled from the spec: whether a rule is satisfied by the parsed
values of its bound parameters. -/
def checkRule (vals : Values) (ps : List CParam) : ConstraintRule → Bool
  | ConstraintRule.acceptAtMost n => decide (countSet vals ps ≤ n)
  | ConstraintRule.requireAll => ps.all (fun p => isSetIn vals p)
  | ConstraintRule.ifCond c t e =>
      if isSetIn vals c then checkRule vals ps t else checkRule vals ps e
  | ConstraintRule.both a b => checkRule vals ps a && checkRule vals ps b
  | ConstraintRule.either a b => checkRule vals ps a || checkRule vals ps b

/-- A rule attached to a command together with the parameters it is bound
to — whether via `constraint()`, `constrained_params()` or an option
group's `constraint` argument. -/
structure BoundConstraint where
  rule : ConstraintRule
  params : List CParam
deriving DecidableEq

/-- Error raised by the command when a constraint fails. -/
inductive ParseError where
  | constraintViolated (msg : String)
deriving DecidableEq

/-- A short human-readable description of a rule, used in the error. -/
def describeRule : ConstraintRule → String
  | ConstraintRule.acceptAtMost n => "accept at most " ++ toString n
  | ConstraintRule.requireAll => "require all"
  | ConstraintRule.ifCond _ t _ => "when condition holds: " ++ describeRule t
  | ConstraintRule.both a b => describeRule a ++ " and " ++ describeRule b
  | ConstraintRule.either a b => describeRule a ++ " or " ++ describeRule b

/-- Modelled from the spec: check every constraint attached to the
command, failing with `ConstraintViolated` on the first violated rule. -/
def checkConstraints (vals : Values) : List BoundConstraint → Except ParseError Unit
  | [] => Except.ok ()
  | c :: rest =>
      if checkRule vals c.params c.rule then checkConstraints vals rest
      else Except.error (ParseError.constraintViolated (describeRule c.rule))

/-- Modelled from the spec: `ConstraintMixin.parse_args` lets the host
framework parse first (the parsed values are this function's input) and
only then checks the attached constraints; a satisfying combination of
values passes through unchanged. -/
def ConstraintMixin_parse_args (cs : List BoundConstraint) (vals : Values) : Except ParseError Values :=
  match checkConstraints vals cs with
  | Except.ok _ => Except.ok vals
  | Except.error e => Except.error e

/-! ## Option groups data model (cloup/_option_groups.py, cloup/_params.py)

A `Constraint` object is only used by this layer through its rendered
`help(ctx)` description; the Constraint class itself lives in the missing
`_core.py`, so it is modelled as that rendered description. -/

/-- Modelled from the spec: a constraint as the help-formatting layer sees
it — only its rendered human-readable description is used here
(`group.constraint.help(ctx)`). -/
structure Constraint where
  help : String
deriving DecidableEq

/-- The decoration-time identity and metadata of an option group: what
`OptionGroup.__init__` stores, before any option is assigned. `gid`
stands for Python object identity (two calls to the constructor give two
distinct markers). -/
structure GroupMarker where
  gid : Nat
  title : String
  help : Option String
  constraint : Option Constraint
  hidden : Bool
  post_parse_callback : Option Nat
deriving DecidableEq

/-- A click/cloup Option as this layer manipulates it: its name, its
`hidden` attribute, its `group` attribute (the option-group marker), and
the help record `get_help_record(ctx)` would render for it when not
hidden (abstracted as data: the rendering itself is click's). -/
structure ClickOption where
  name : String
  hidden : Bool
  group : Option GroupMarker
  record : String × String
deriving DecidableEq

/-- A click Argument as the help layer sees it: `isCloup` tells whether
it is a cloup `Argument` (which has `help` and `hidden` attributes; a
plain click Argument raises AttributeError for both), plus its rendered
help record and metavar. -/
structure ClickArgument where
  isCloup : Bool
  hidden : Option Bool
  help : Option String
  metavar : String
  record : String × String
deriving DecidableEq

/-- An `OptionGroup` object with its full state: the constructor fields
plus the `_options` sequence (empty at construction time). -/
structure OptionGroup where
  title : String
  help : Option String
  constraint : Option Constraint
  hidden : Bool
  post_parse_callback : Option Nat
  options : List ClickOption
deriving DecidableEq

/-- The `OptionGroup` the decorator creates for a marker: `_options` is
the empty sequence. -/
def OptionGroup.ofMarker (m : GroupMarker) : OptionGroup :=
  { title := m.title, help := m.help, constraint := m.constraint,
    hidden := m.hidden, post_parse_callback := m.post_parse_callback,
    options := [] }

/-- An `OptionGroup` built as `OptionGroup(title)`: all other constructor
arguments at their defaults. -/
def OptionGroup.named (title : String) : OptionGroup :=
  { title := title, help := Option.none, constraint := Option.none,
    hidden := false, post_parse_callback := Option.none, options := [] }

/-- The `options` property setter (lines 70-77 of _option_groups.py): it
stores the tuple of options; if the group is hidden it hides every
option; otherwise, if every option is hidden, the group becomes hidden. -/
def OptionGroup.setOptions (g : OptionGroup) (opts : List ClickOption) : OptionGroup :=
  if g.hidden then
    { g with options := opts.map (fun o => { o with hidden := true }) }
  else if opts.all (fun o => o.hidden) then
    { g with options := opts, hidden := true }
  else
    { g with options := opts }

/-- `OptionGroup.get_help_records`: the empty list for a hidden group,
otherwise the help records of its non-hidden options. -/
def OptionGroup.get_help_records (g : OptionGroup) : List (String × String) :=
  if g.hidden then []
  else (g.options.filter (fun o => !o.hidden)).map (fun o => o.record)

/-! ## Parameter grouping (OptionGroupMixin._group_params) -/

/-- A member of a command's `params` list. -/
inductive Param where
  | argument (a : ClickArgument)
  | opt (o : ClickOption)
deriving DecidableEq

/-- Append an option under its group key, keeping the insertion order of
keys — the behaviour of `defaultdict(list)` in `_group_params`. -/
def insertGrouped (gs : List (GroupMarker × List ClickOption)) (m : GroupMarker) (o : ClickOption) : List (GroupMarker × List ClickOption) :=
  match gs with
  | [] => [(m, [o])]
  | (m2, os) :: rest =>
      if m2 = m then (m2, os ++ [o]) :: rest
      else (m2, os) :: insertGrouped rest m o

/-- The loop of `_group_params`: split the params into arguments, options
keyed by their group, and ungrouped options, preserving order. -/
def groupParamsAux (args : List ClickArgument) (gs : List (GroupMarker × List ClickOption)) (ung : List ClickOption) : List Param → List ClickArgument × List (GroupMarker × List ClickOption) × List ClickOption
  | [] => (args, gs, ung)
  | Param.argument a :: rest => groupParamsAux (args ++ [a]) gs ung rest
  | Param.opt o :: rest =>
      match o.group with
      | Option.none => groupParamsAux args gs (ung ++ [o]) rest
      | Option.some m => groupParamsAux args (insertGrouped gs m o) ung rest

/-- `OptionGroupMixin._group_params`: returns the arguments, the option
groups (each group object receiving its collected options through the
`options` setter), and the ungrouped options. -/
def group_params (params : List Param) : List ClickArgument × List OptionGroup × List ClickOption :=
  let r := groupParamsAux [] [] [] params
  (r.1, r.2.1.map (fun p => (OptionGroup.ofMarker p.1).setOptions p.2), r.2.2)

/-! ## Help sections (OptionGroupMixin.format_params and friends)

`HelpSection` lives in the missing `formatting/_formatter.py`; from its
call sites it is a record of a heading, the option definitions, an
optional description and an optional rendered constraint. The formatter's
`write_many_sections` writes the given sections in order, so the embedding
of `format_params` returns the ordered list of sections it writes. -/

/-- Modelled from the spec: a help section as constructed by this layer —
heading, definitions (help records), optional description, optional
rendered constraint. -/
structure HelpSection where
  heading : String
  definitions : List (String × String)
  help : Option String := Option.none
  constraint : Option String := Option.none
deriving DecidableEq

/-- `OptionGroupMixin.get_argument_help_record`: a cloup Argument renders
its own help record; a plain click Argument gets its metavar and an empty
help string. -/
def get_argument_help_record (a : ClickArgument) : String × String :=
  if a.isCloup then a.record else (a.metavar, "")

/-- The loop body of `get_arguments_help_section`: an argument is appended
once if its `hidden` attribute exists and is exactly False, and appended
again if its `help` attribute exists and is not None (both getattr calls
fail for a plain click Argument). -/
def argsToShow (args : List ClickArgument) : List ClickArgument :=
  args.flatMap (fun a =>
    (if a.isCloup && (a.hidden == Option.some false) then [a] else []) ++
    (if a.isCloup && a.help.isSome then [a] else []))

/-- `OptionGroupMixin.get_arguments_help_section`: None when no argument
is selected, otherwise the "Positional arguments" section. -/
def get_arguments_help_section (args : List ClickArgument) : Option HelpSection :=
  let toShow := argsToShow args
  if toShow.isEmpty then Option.none
  else Option.some
    { heading := "Positional arguments",
      definitions := toShow.map get_argument_help_record }

/-- `OptionGroupMixin.make_option_group_help_section`: heading, records,
description and the constraint's rendered help (None when the group has
no constraint). -/
def make_option_group_help_section (g : OptionGroup) : HelpSection :=
  { heading := g.title,
    definitions := g.get_help_records,
    help := g.help,
    constraint := g.constraint.map Constraint.help }

/-- `OptionGroupMixin.get_ungrouped_options`: the ungrouped options plus
the `--help` option when the context provides one. -/
def get_ungrouped_options (ungrouped : List ClickOption) (helpOption : Option ClickOption) : List ClickOption :=
  match helpOption with
  | Option.some h => ungrouped ++ [h]
  | Option.none => ungrouped

/-- `OptionGroupMixin.get_default_option_group`: a fresh group titled
"Options" when it is the only visible option group and "Other options"
otherwise, receiving the ungrouped options through the setter. -/
def get_default_option_group (ungrouped : List ClickOption) (helpOption : Option ClickOption) (is_the_only_visible_option_group : Bool) : OptionGroup :=
  (OptionGroup.named (if is_the_only_visible_option_group then "Options" else "Other options")).setOptions
    (get_ungrouped_options ungrouped helpOption)

/-- `OptionGroupMixin.format_params`: the ordered list of help sections
the formatter is asked to write — the positional-arguments section when
present, one section per non-hidden user-defined option group, and the
default group's section unless that group is hidden. -/
def format_params (arguments : List ClickArgument) (option_groups : List OptionGroup) (ungrouped : List ClickOption) (helpOption : Option ClickOption) : List HelpSection :=
  let visible0 : List HelpSection :=
    match get_arguments_help_section arguments with
    | Option.some s => [s]
    | Option.none => []
  let ogSections := (option_groups.filter (fun g => !g.hidden)).map make_option_group_help_section
  let default_group := get_default_option_group ungrouped helpOption ogSections.isEmpty
  let allOg :=
    if default_group.hidden then ogSections
    else ogSections ++ [make_option_group_help_section default_group]
  visible0 ++ allOg

/-! ## The parse lifecycle of OptionGroupMixin (parse_args) -/

/-- An observable event of `OptionGroupMixin.parse_args`: the delegation
to the host framework's parser, or the invocation of a group's post-parse
callback (identified by the callback id stored in the group). -/
inductive LifecycleEvent where
  | hostParse
  | groupCallback (cb : Nat)
deriving DecidableEq

/-- The loop of `OptionGroupMixin.parse_args`: run the post-parse callback
of every group that has one, in the order the groups appear. -/
def run_post_parse_callbacks : List OptionGroup → List LifecycleEvent
  | [] => []
  | g :: gs =>
      (match g.post_parse_callback with
       | Option.some cb => [LifecycleEvent.groupCallback cb]
       | Option.none => []) ++ run_post_parse_callbacks gs

/-- `OptionGroupMixin.parse_args`: delegate to the host parser first (its
result is `hostResult`), then run the groups' post-parse callbacks, then
return the host's result. The second component is the ordered event
trace. -/
def OptionGroupMixin_parse_args (hostResult : List String) (groups : List OptionGroup) : List String × List LifecycleEvent :=
  (hostResult, LifecycleEvent.hostParse :: run_post_parse_callbacks groups)

/-! ## The @option_group decorator (cloup/_option_groups.py lines 385-429)

A supplied option decorator is embedded as the list of parameters it
appends to the decorated function's `__click_params__` list. The first
argument of `@option_group` may fail the isinstance(str) check, so it is
embedded as a sum. -/

/-- The first argument of `@option_group`: a string title, or a value of
any other type (e.g. a forgotten title). -/
inductive TitleArg where
  | ofString (s : String)
  | nonString
deriving DecidableEq

/-- Errors `_option_group` raises, by Python exception type and cause. -/
inductive DecorError where
  | typeErrorTitleNotString
  | valueErrorNoOptions
  | typeErrorNonOption
  | valueErrorAlreadyGrouped
deriving DecidableEq

/-- The inner loop over `added_options` (lines 413-426): each added
parameter must be an Option not yet assigned to a group; it then receives
the fresh group as its `group` attribute, and is hidden when the group is
hidden. Returns the tagged options. -/
def tagAddedOptions (grp : GroupMarker) (hidden : Bool) : List Param → Except DecorError (List ClickOption)
  | [] => Except.ok []
  | Param.argument _ :: _ => Except.error DecorError.typeErrorNonOption
  | Param.opt o :: rest =>
      match o.group with
      | Option.some _ => Except.error DecorError.valueErrorAlreadyGrouped
      | Option.none =>
          match tagAddedOptions grp hidden rest with
          | Except.error e => Except.error e
          | Except.ok tagged =>
              Except.ok ({ o with group := Option.some grp,
                                  hidden := hidden || o.hidden } :: tagged)

/-- The outer loop of the decorator (line 410): apply each supplied option
decorator to the function — appending its parameters to `cli_params` —
and tag the parameters it added. The caller passes the decorators already
reversed, as `reversed(options)` does. -/
def applyGroupDecorators (grp : GroupMarker) (hidden : Bool) (cli_params : List Param) : List (List Param) → Except DecorError (List Param)
  | [] => Except.ok cli_params
  | d :: ds =>
      match tagAddedOptions grp hidden d with
      | Except.error e => Except.error e
      | Except.ok tagged =>
          applyGroupDecorators grp hidden (cli_params ++ tagged.map Param.opt) ds

/-- `_option_group` applied to a function: checks that the title is a
string and that at least one option decorator was given, creates the
fresh group marker (`gid` is its fresh object identity), then runs the
supplied decorators in reverse order over the function's current
parameter list. Returns the created group and the new parameter list. -/
def option_group_decorator (title : TitleArg) (options : List (List Param)) (help : Option String) (constraint : Option Constraint) (hidden : Bool) (post_parse_callback : Option Nat) (gid : Nat) (cli_params : List Param) : Except DecorError (GroupMarker × List Param) :=
  match title with
  | TitleArg.nonString => Except.error DecorError.typeErrorTitleNotString
  | TitleArg.ofString t =>
      if options.isEmpty then Except.error DecorError.valueErrorNoOptions
      else
        let grp : GroupMarker :=
          { gid := gid, title := t, help := help, constraint := constraint,
            hidden := hidden, post_parse_callback := post_parse_callback }
        match applyGroupDecorators grp hidden cli_params options.reverse with
        | Except.error e => Except.error e
        | Except.ok ps => Except.ok (grp, ps)

/-- A parameter added by a supplied decorator that the loop accepts: an
Option not yet assigned to any group. -/
def isUngroupedOpt : Param → Bool
  | Param.opt o => o.group.isNone
  | Param.argument _ => false

/-! ## Option.__init__ and the nargs = -1 parser wrapper (cloup/_params.py) -/

/-- What `Option.__init__` does with the `nargs` keyword: record whether
nargs was -1 in `_consume_arbitrary_nargs`, and pop `nargs` from the
attributes forwarded to `click.Option.__init__` when it was -1. -/
structure OptionInitRecord where
  consume_arbitrary_nargs : Bool
  forwarded_nargs : Option Int
deriving DecidableEq

/-- The nargs handling at the start of `Option.__init__` (lines 147-155
of _params.py). -/
def optionInitNargs (nargs : Option Int) : OptionInitRecord :=
  { consume_arbitrary_nargs :=
      match nargs with
      | Option.some n => n == -1
      | Option.none => false,
    forwarded_nargs := if nargs == Option.some (-1) then Option.none else nargs }

/-- Whether a token starts with one of the parser's option prefixes
(the inner `for` loop setting `done`). -/
def startsWithAny (prefixes : List String) (tok : String) : Bool :=
  prefixes.any (fun p => tok.startsWith p)

/-- The `while state.rargs and not done` loop of `parser_process`: keep
popping tokens from the remaining arguments into the collected value
until a token starts with an option prefix or the list is exhausted.
Returns the collected values and the remaining arguments. -/
def eatAllLoop (prefixes : List String) (acc : List String) : List String → List String × List String
  | [] => (acc, [])
  | tok :: rest =>
      if startsWithAny prefixes tok then (acc, tok :: rest)
      else eatAllLoop prefixes (acc ++ [tok]) rest

/-- The value handed to the original parser process function: the single
matched value, or the collected tuple when nargs = -1. -/
inductive PassedValue where
  | single (s : String)
  | tuple (xs : List String)
deriving DecidableEq

/-- `parser_process` (the wrapper installed by `Option.add_to_parser`):
when `_consume_arbitrary_nargs` is set, wrap the matched value in a list,
consume following tokens up to the first one starting with an option
prefix, and hand the tuple to the original process; otherwise pass the
value through unchanged. Returns the passed value and the remaining
argument list. -/
def parserProcess (consume_arbitrary : Bool) (prefixes : List String) (value : String) (rargs : List String) : PassedValue × List String :=
  if consume_arbitrary then
    let (vals, rest) := eatAllLoop prefixes [value] rargs
    (PassedValue.tuple vals, rest)
  else
    (PassedValue.single value, rargs)

/-! ## Parameter types (cloup/types.py)

Each `convert` method is embedded together with the list of calls it
makes into the host library's conversion logic, so that delegation (or
its absence) is part of the embedding. -/

/-- A call from a `convert` method into the host library's own conversion
logic. -/
inductive HostCall where
  | dateTimeSuperConvert
  | clickPathConvert
deriving DecidableEq

/-- A converted parameter value. `datetime` is abstract (its payload
identifies the parsed datetime object). -/
inductive ConvertValue where
  | int (n : Int)
  | str (s : String)
  | datetime (d : Nat)
deriving DecidableEq

/-- Result of a `convert` call: the value or the failure message, plus
the calls made into the host library's conversion logic. -/
structure ConvertOut where
  result : Except String ConvertValue
  hostCalls : List HostCall

/-- Value of a character as a digit, as Python's `int(value, base)`
accepts them. -/
def digitValue (c : Char) : Option Nat :=
  if '0' ≤ c && c ≤ '9' then Option.some (c.toNat - Char.toNat '0')
  else if 'a' ≤ c && c ≤ 'z' then Option.some (c.toNat - Char.toNat 'a' + 10)
  else if 'A' ≤ c && c ≤ 'Z' then Option.some (c.toNat - Char.toNat 'A' + 10)
  else Option.none

/-- Value of a digit string in the given base; fails on a character that
is not a digit of the base. -/
def digitsToNat (base : Nat) (cs : List Char) : Option Nat :=
  cs.foldl
    (fun acc c =>
      acc.bind (fun n =>
        (digitValue c).bind (fun d =>
          if d < base then Option.some (n * base + d) else Option.none)))
    (Option.some 0)

/-- Model of Python's `int(value, base)` on a string: an optional sign
followed by a non-empty run of digits of the base. -/
def pyInt (base : Nat) (s : String) : Option Int :=
  match s.toList with
  | [] => Option.none
  | '-' :: rest =>
      if rest.isEmpty then Option.none
      else (digitsToNat base rest).map (fun n => -(n : Int))
  | '+' :: rest =>
      if rest.isEmpty then Option.none
      else (digitsToNat base rest).map (fun n => (n : Int))
  | cs => (digitsToNat base cs).map (fun n => (n : Int))

/-- `Integer.convert`: convert the value with `int(value, self.base)` in
this layer — no call into the host library — failing when the string is
not a valid integer, and returning the original string when `as_str` is
set. -/
def Integer_convert (base : Nat) ( as_str : Bool) (value : String) : ConvertOut :=
  match pyInt base value with
  | Option.none =>
      { result := Except.error (value ++ " is not a valid integer"), hostCalls := [] }
  | Option.some n =>
      { result := Except.ok (if as_str then ConvertValue.str value else ConvertValue.int n),
        hostCalls := [] }

/-- Input to `DateTime.convert`: an already-parsed datetime object or a
string. -/
inductive DTInput where
  | datetimeVal (d : Nat)
  | strVal (s : String)
deriving DecidableEq

/-- `DateTime.convert`: a datetime value passes through; with
`use_dateutil` the external dateutil parser (`dateutilParse`, assumed
importable) is used in this layer; otherwise the conversion is delegated
to the host library's `DateTime.convert` (`hostConvert`). -/
def DateTime_convert (use_dateutil : Bool) (dateutilParse : String → Option Nat) (hostConvert : String → Except String ConvertValue) (value : DTInput) : ConvertOut :=
  match value with
  | DTInput.datetimeVal d => { result := Except.ok (ConvertValue.datetime d), hostCalls := [] }
  | DTInput.strVal s =>
      if use_dateutil then
        match dateutilParse s with
        | Option.some d => { result := Except.ok (ConvertValue.datetime d), hostCalls := [] }
        | Option.none => { result := Except.error (s ++ " is not a valid datetime"), hostCalls := [] }
      else
        { result := hostConvert s, hostCalls := [HostCall.dateTimeSuperConvert] }

/-! ## Concrete instances used to exercise the definitions -/

/-- A visible option outside any group. -/
def optX : ClickOption :=
  { name := "x", hidden := false, group := Option.none, record := ("-x", "an x") }

/-- Another visible ungrouped option. -/
def optA : ClickOption :=
  { name := "a", hidden := false, group := Option.none, record := ("-a", "an a") }

/-- A visible user-defined option group containing one visible option. -/
def gExC4 : OptionGroup :=
  { title := "Ex", help := Option.none, constraint := Option.none,
    hidden := false, post_parse_callback := Option.none, options := [optX] }

/-- A plain positional argument. -/
def argEx : ClickArgument :=
  { isCloup := false, hidden := Option.none, help := Option.none,
    metavar := "ARG", record := ("ARG", "") }

/-- An option already assigned to a group with identity 1. -/
def optGrouped : ClickOption :=
  { name := "g", hidden := false,
    group := Option.some
      { gid := 1, title := "H", help := Option.none, constraint := Option.none,
        hidden := false, post_parse_callback := Option.none },
    record := ("-g", "") }

/-- Membership of an option under a group key in the insertion-ordered
association list `_group_params` builds. -/
def memKV (gs : List (GroupMarker × List ClickOption)) (m : GroupMarker) (o : ClickOption) : Prop :=
  ∃ os, (m, os) ∈ gs ∧ o ∈ os

/-! ## Helper lemmas -/

/-- The collected constraint checks succeed when every rule is satisfied. -/
theorem checkConstraints_ok_of_all (vals : Values) : ∀ cs : List BoundConstraint,
    (∀ c ∈ cs, checkRule vals c.params c.rule = true) →
    checkConstraints vals cs = Except.ok () := by
  intro cs
  induction cs with
  | nil => intro _; rfl
  | cons c rest ih =>
    intro h
    have hc := h c (List.mem_cons_self c rest)
    simp only [checkConstraints, hc, if_true]
    exact ih (fun c2 h2 => h c2 (List.mem_cons_of_mem c h2))

/-- The collected constraint checks fail with a ConstraintViolated error
when some rule is violated. -/
theorem checkConstraints_error_of_violated (vals : Values) : ∀ cs : List BoundConstraint,
    (∃ c ∈ cs, checkRule vals c.params c.rule = false) →
    ∃ msg, checkConstraints vals cs = Except.error (ParseError.constraintViolated msg) := by
  intro cs
  induction cs with
  | nil => rintro ⟨c, hc, _⟩; cases hc
  | cons c rest ih =>
    rintro ⟨c2, hc2, hviol⟩
    by_cases h : checkRule vals c.params c.rule = true
    · rcases List.mem_cons.mp hc2 with heq | hmem
      · rw [heq] at hviol; rw [h] at hviol; cases hviol
      · rcases ih ⟨c2, hmem, hviol⟩ with ⟨msg, hmsg⟩
        exact ⟨msg, by simp only [checkConstraints, h, if_true]; exact hmsg⟩
    · refine ⟨describeRule c.rule, ?_⟩
      simp only [checkConstraints]
      rw [if_neg h]

/-- The post-parse callback loop runs exactly the callbacks of the groups
that have one, in order. -/
theorem run_post_parse_callbacks_eq : ∀ groups : List OptionGroup,
    run_post_parse_callbacks groups =
      groups.filterMap (fun g => g.post_parse_callback.map LifecycleEvent.groupCallback) := by
  intro groups
  induction groups with
  | nil => rfl
  | cons g gs ih =>
    cases h : g.post_parse_callback <;>
      simp [run_post_parse_callbacks, h, ih, List.filterMap_cons]

/-- Unfolding of the eat-all loop: it collects the longest token run not
starting with an option prefix and leaves the rest. -/
theorem eatAllLoop_eq (prefixes : List String) : ∀ (l acc : List String),
    eatAllLoop prefixes acc l =
      (acc ++ l.takeWhile (fun t => !startsWithAny prefixes t),
       l.dropWhile (fun t => !startsWithAny prefixes t)) := by
  intro l
  induction l with
  | nil => intro acc; simp [eatAllLoop]
  | cons tok rest ih =>
    intro acc
    by_cases h : startsWithAny prefixes tok
    · simp [eatAllLoop, h, List.takeWhile_cons, List.dropWhile_cons]
    · simp [eatAllLoop, h, ih, List.takeWhile_cons, List.dropWhile_cons]

/-! ## Claim theorems -/

/-- C1: for every command with attached constraint rules, the rules are
checked after parsing completes (the checker consumes the parsed values);
a combination of parameter values violating some rule makes the command
fail with a ConstraintViolated error, and every satisfying combination
passes through unchanged. -/
theorem C1_constraints_checked_post_parse : ∀ (cs : List BoundConstraint) (vals : Values),
    ((∀ c ∈ cs, checkRule vals c.params c.rule = true) →
       ConstraintMixin_parse_args cs vals = Except.ok vals)
    ∧ ((∃ c ∈ cs, checkRule vals c.params c.rule = false) →
       ∃ msg, ConstraintMixin_parse_args cs vals = Except.error (ParseError.constraintViolated msg)) := by
  intro cs vals
  constructor
  · intro h
    simp only [ConstraintMixin_parse_args, checkConstraints_ok_of_all vals cs h]
  · intro h
    rcases checkConstraints_error_of_violated vals cs h with ⟨msg, hmsg⟩
    exact ⟨msg, by simp only [ConstraintMixin_parse_args, hmsg]⟩

/-- Witness for C1: a mutually-exclusive rule over parameters a and b
passes when only a is set and fails with ConstraintViolated when both
are set. -/
theorem C1_witness :
    ConstraintMixin_parse_args
      [⟨mutually_exclusive, [⟨"a", int_opt⟩, ⟨"b", int_opt⟩]⟩]
      [("a", PValue.int 3)] = Except.ok [("a", PValue.int 3)]
    ∧ ∃ msg, ConstraintMixin_parse_args
      [⟨mutually_exclusive, [⟨"a", int_opt⟩, ⟨"b", int_opt⟩]⟩]
      [("a", PValue.int 3), ("b", PValue.int 4)] =
        Except.error (ParseError.constraintViolated msg) :=
  ⟨(C1_constraints_checked_post_parse
      [⟨mutually_exclusive, [⟨"a", int_opt⟩, ⟨"b", int_opt⟩]⟩]
      [("a", PValue.int 3)]).1 (by decide),
   (C1_constraints_checked_post_parse
      [⟨mutually_exclusive, [⟨"a", int_opt⟩, ⟨"b", int_opt⟩]⟩]
      [("a", PValue.int 3), ("b", PValue.int 4)]).2 (by decide)⟩

/-- C2: an Option built with nargs = -1 records
`_consume_arbitrary_nargs = True`, does not forward nargs to the host
class, and its patched parser process consumes the matched value plus
every following token up to (not including) the first token starting
with one of the parser's option prefixes, handing the collected values to
the original process function as a single tuple. -/
theorem C2_nargs_minus_one_consumes_until_prefix :
    (optionInitNargs (Option.some (-1))).consume_arbitrary_nargs = true
    ∧ (optionInitNargs (Option.some (-1))).forwarded_nargs = Option.none
    ∧ (∀ (prefixes : List String) (v : String) (rargs : List String),
        parserProcess true prefixes v rargs =
          (PassedValue.tuple (v :: rargs.takeWhile (fun t => !startsWithAny prefixes t)),
           rargs.dropWhile (fun t => !startsWithAny prefixes t))) := by
  refine ⟨rfl, rfl, ?_⟩
  intro prefixes v rargs
  simp [parserProcess, eatAllLoop_eq]

/-- C3: OptionGroupMixin.parse_args first delegates to the host parser,
returns the host's result unchanged, and only afterwards runs the
post-parse callbacks of the groups that have one, in the order the groups
appear; no callback event precedes the host-parse event. -/
theorem C3_parse_then_callbacks : ∀ (hostResult : List String) (groups : List OptionGroup),
    (OptionGroupMixin_parse_args hostResult groups).1 = hostResult
    ∧ (OptionGroupMixin_parse_args hostResult groups).2.head? = Option.some LifecycleEvent.hostParse
    ∧ (OptionGroupMixin_parse_args hostResult groups).2.tail =
        groups.filterMap (fun g => g.post_parse_callback.map LifecycleEvent.groupCallback) := by
  intro hostResult groups
  refine ⟨rfl, rfl, ?_⟩
  simp [OptionGroupMixin_parse_args, run_post_parse_callbacks_eq]

/-- C6: the help section built for a non-hidden option group with an
attached constraint carries the constraint's rendered description
alongside the group's title, description and option records; without a
constraint the section's constraint field is None. -/
theorem C6_section_carries_constraint_help : ∀ g : OptionGroup,
    g.hidden = false →
    (∀ c : Constraint, g.constraint = Option.some c →
       (make_option_group_help_section g).constraint = Option.some c.help
       ∧ (make_option_group_help_section g).heading = g.title
       ∧ (make_option_group_help_section g).help = g.help
       ∧ (make_option_group_help_section g).definitions =
           (g.options.filter (fun o => !o.hidden)).map (fun o => o.record))
    ∧ (g.constraint = Option.none → (make_option_group_help_section g).constraint = Option.none) := by
  intro g hg
  constructor
  · intro c hc
    refine ⟨?_, rfl, rfl, ?_⟩
    · simp [make_option_group_help_section, hc]
    · simp [make_option_group_help_section, OptionGroup.get_help_records, hg]
  · intro hc
    simp [make_option_group_help_section, hc]

/-- Witness for C6: a visible group with a constraint gets the rendered
constraint text in its section; the same group without a constraint gets
None. -/
theorem C6_witness :
    (make_option_group_help_section
      { gExC4 with constraint := Option.some ⟨"at most one"⟩ }).constraint =
        Option.some "at most one"
    ∧ (make_option_group_help_section gExC4).constraint = Option.none :=
  ⟨((C6_section_carries_constraint_help
      { gExC4 with constraint := Option.some ⟨"at most one"⟩ } rfl).1
      ⟨"at most one"⟩ rfl).1,
   (C6_section_carries_constraint_help gExC4 rfl).2 rfl⟩

/-- C7 counterexample: Integer.convert converts the string "42" to the
integer 42 inside this layer, making no call into the host library's
conversion logic — so not every parameter type delegates conversion to
the host, and the layer does perform type coercion. -/
theorem C7_counterexample_integer_converts_in_layer :
    (Integer_convert 10 false "42").hostCalls = []
    ∧ (Integer_convert 10 false "42").result = Except.ok (ConvertValue.int 42) :=
  ⟨rfl, rfl⟩

/-- C7 amended: not every parameter type defined in types.py delegates
conversion to the host library — Integer.convert never calls into the
host and performs the integer coercion itself, while DateTime.convert
(without use_dateutil) does delegate string conversion to the host's
DateTime logic and returns the host's result. -/
theorem C7_amended_not_all_delegate :
    (∀ (base : Nat) (b : Bool) (s : String), (Integer_convert base b s).hostCalls = [])
    ∧ (∀ (dp : String → Option Nat) (hc : String → Except String ConvertValue) (s : String),
        (DateTime_convert false dp hc (DTInput.strVal s)).hostCalls = [HostCall.dateTimeSuperConvert]
        ∧ (DateTime_convert false dp hc (DTInput.strVal s)).result = hc s) := by
  constructor
  · intro base b s
    cases h : pyInt base s <;> simp [Integer_convert, h]
  · intro dp hc s
    exact ⟨rfl, rfl⟩

/-- C8: the is-set predicate of the constraint engine returns False for
None, for a flag whose value is False and for a multiple or tuple-typed
option whose value is the empty tuple; it returns True for a non-flag
boolean option with value False, for the integer 0, and for every other
non-None value. -/
theorem C8_param_value_is_set_cases :
    (∀ p : ParamModel, param_value_is_set p PValue.none = false)
    ∧ param_value_is_set flag_opt (PValue.bool false) = false
    ∧ param_value_is_set flag_opt (PValue.bool true) = true
    ∧ param_value_is_set multi_opt (PValue.tuple []) = false
    ∧ param_value_is_set tuple_opt (PValue.tuple []) = false
    ∧ param_value_is_set bool_opt (PValue.bool false) = true
    ∧ param_value_is_set int_opt (PValue.int 0) = true
    ∧ (∀ (p : ParamModel) (v : PValue), v ≠ PValue.none →
        (p.is_bool_flag = true → v ≠ PValue.bool false) →
        ((p.multiple = true ∨ p.nargs ≠ 1) → v ≠ PValue.tuple []) →
        param_value_is_set p v = true) := by
  refine ⟨fun p => rfl, rfl, rfl, rfl, rfl, rfl, rfl, ?_⟩
  intro p v hv hflag htuple
  cases v with
  | none => exact absurd rfl hv
  | str s => rfl
  | int n => rfl
  | bool b =>
    simp only [param_value_is_set]
    by_cases hf : p.is_bool_flag = true
    · cases b
      · exact absurd rfl (hflag hf)
      · simp [hf]
    · simp [Bool.not_eq_true] at hf
      simp [hf]
  | tuple xs =>
    simp only [param_value_is_set]
    by_cases hcond : (p.multiple || p.nargs != 1) = true
    · have hne : xs ≠ [] := by
        intro hxs
        subst hxs
        have hcond2 : p.multiple = true ∨ p.nargs ≠ 1 := by
          rcases Bool.or_eq_true_iff.mp hcond with hm | hn
          · exact Or.inl hm
          · exact Or.inr (by simpa using hn)
        exact htuple hcond2 rfl
      simp [hcond, hne]
    · simp [hcond]

/-- Witness for C8: a non-flag, nargs = 1 option holding the string value
bu is set. -/
theorem C8_witness : param_value_is_set int_opt (PValue.str "bu") = true :=
  (C8_param_value_is_set_cases).2.2.2.2.2.2.2 int_opt (PValue.str "bu")
    (by decide) (fun _ => by decide) (fun h => by decide)

/-- C9: assigning the options of an OptionGroup preserves the hidden
invariant — a hidden group hides every assigned option, a group whose
assigned options are all hidden becomes hidden, and a hidden group
renders no help records. -/
theorem C9_options_setter_hidden_invariant : ∀ (g : OptionGroup) (opts : List ClickOption),
    (g.hidden = true → ∀ o ∈ (g.setOptions opts).options, o.hidden = true)
    ∧ ((∀ o ∈ opts, o.hidden = true) → (g.setOptions opts).hidden = true)
    ∧ (∀ g2 : OptionGroup, g2.hidden = true → g2.get_help_records = []) := by
  intro g opts
  refine ⟨?_, ?_, ?_⟩
  · intro hg o ho
    simp only [OptionGroup.setOptions, hg, if_true] at ho
    rcases List.mem_map.mp ho with ⟨o2, _, rfl⟩
    rfl
  · intro hall
    by_cases hg : g.hidden = true
    · simp [OptionGroup.setOptions, hg]
    · have : opts.all (fun o => o.hidden) = true := List.all_eq_true.mpr hall
      simp [OptionGroup.setOptions, hg, this]
  · intro g2 hg2
    simp [OptionGroup.get_help_records, hg2]

/-- Witness for C9: assigning a visible and a hidden option to a hidden
group hides both; assigning only hidden options to a visible group makes
it hidden; a hidden group has no help records. -/
theorem C9_witness :
    (∀ o ∈ (OptionGroup.setOptions { gExC4 with hidden := true } [optX]).options, o.hidden = true)
    ∧ (OptionGroup.setOptions gExC4 [{ optX with hidden := true }]).hidden = true
    ∧ OptionGroup.get_help_records { gExC4 with hidden := true } = [] :=
  ⟨(C9_options_setter_hidden_invariant { gExC4 with hidden := true } [optX]).1 rfl,
   (C9_options_setter_hidden_invariant gExC4 [{ optX with hidden := true }]).2.1 (by decide),
   (C9_options_setter_hidden_invariant gExC4 []).2.2 { gExC4 with hidden := true } rfl⟩

/-- Mapping over a list preserves emptiness. -/
theorem isEmpty_map {α β : Type} (f : α → β) (l : List α) :
    (l.map f).isEmpty = l.isEmpty := by
  cases l <;> rfl

/-- The ungrouped options plus the optional help option, as a single
append. -/
theorem get_ungrouped_options_eq (ungrouped : List ClickOption) (helpOption : Option ClickOption) :
    get_ungrouped_options ungrouped helpOption = ungrouped ++ helpOption.toList := by
  cases helpOption <;> simp [get_ungrouped_options]

/-- The options setter does not change the group's title. -/
theorem setOptions_title (g : OptionGroup) (opts : List ClickOption) :
    (g.setOptions opts).title = g.title := by
  simp only [OptionGroup.setOptions]
  split <;> try rfl
  split <;> rfl

/-- When the setter leaves the group visible, the stored options are
exactly the assigned ones. -/
theorem setOptions_options_of_not_hidden (g : OptionGroup) (opts : List ClickOption) :
    (g.setOptions opts).hidden = false → (g.setOptions opts).options = opts := by
  intro h
  simp only [OptionGroup.setOptions] at h ⊢
  by_cases hg : g.hidden
  · simp [hg] at h
  · simp only [hg, if_false] at h ⊢
    by_cases hall : opts.all (fun o => o.hidden)
    · simp [hall] at h
    · simp [hall]

/-- C4 counterexample: with one visible user-defined option group, no
ungrouped options and no help option, format_params writes only the user
group's section — the claimed final default-group section (which would be
titled Other options here) is absent, because the default group is
hidden. -/
theorem C4_counterexample_no_default_section :
    (format_params [] [gExC4] [] Option.none).map HelpSection.heading = ["Ex"]
    ∧ ("Ex" : String) ≠ "Options" ∧ ("Ex" : String) ≠ "Other options" :=
  ⟨rfl, by decide, by decide⟩

/-- C4 amended: format_params writes, in order, the Positional arguments
section when present, one section per non-hidden user-defined option
group in group order, and — only when the default group is not hidden,
i.e. it received at least one visible option — a final section for the
default group, titled Options when no user-defined group section is
visible and Other options otherwise, whose definitions are the records of
the non-hidden ungrouped options followed by the help option when the
context provides one. -/
theorem C4_amended_section_order : ∀ (arguments : List ClickArgument) (option_groups : List OptionGroup) (ungrouped : List ClickOption) (helpOption : Option ClickOption),
    format_params arguments option_groups ungrouped helpOption =
      (get_arguments_help_section arguments).toList
      ++ (option_groups.filter (fun g => !g.hidden)).map make_option_group_help_section
      ++ (if (get_default_option_group ungrouped helpOption
                ((option_groups.filter (fun g => !g.hidden)).isEmpty)).hidden then []
          else [make_option_group_help_section
                 (get_default_option_group ungrouped helpOption
                   ((option_groups.filter (fun g => !g.hidden)).isEmpty))])
    ∧ ((get_default_option_group ungrouped helpOption
          ((option_groups.filter (fun g => !g.hidden)).isEmpty)).hidden = false →
        (make_option_group_help_section
          (get_default_option_group ungrouped helpOption
            ((option_groups.filter (fun g => !g.hidden)).isEmpty))).heading =
          (if (option_groups.filter (fun g => !g.hidden)).isEmpty then "Options" else "Other options")
        ∧ (make_option_group_help_section
            (get_default_option_group ungrouped helpOption
              ((option_groups.filter (fun g => !g.hidden)).isEmpty))).definitions =
            ((ungrouped ++ helpOption.toList).filter (fun o => !o.hidden)).map (fun o => o.record)) := by
  intro arguments option_groups ungrouped helpOption
  constructor
  · simp only [format_params, isEmpty_map]
    by_cases hdg : (get_default_option_group ungrouped helpOption
        ((option_groups.filter (fun g => !g.hidden)).isEmpty)).hidden = true
    · cases get_arguments_help_section arguments <;> simp [hdg]
    · cases get_arguments_help_section arguments <;> simp [hdg]
  · intro hdg
    constructor
    · rw [make_option_group_help_section]
      rw [get_default_option_group, setOptions_title]
      rfl
    · rw [make_option_group_help_section]
      simp only [OptionGroup.get_help_records, hdg, if_false]
      rw [get_default_option_group] at hdg ⊢
      rw [setOptions_options_of_not_hidden _ _ hdg, get_ungrouped_options_eq]
      simp

/-- Witness for C4 amended: one visible ungrouped option and no user
groups produce a single default section titled Options listing that
option's record. -/
theorem C4_amended_witness :
    format_params [] [] [optX] Option.none =
      [{ heading := "Options", definitions := [("-x", "an x")],
         help := Option.none, constraint := Option.none }]
    ∧ (make_option_group_help_section
        (get_default_option_group [optX] Option.none
          ((([] : List OptionGroup).filter (fun g => !g.hidden)).isEmpty))).heading = "Options" := by
  have h := C4_amended_section_order [] [] [optX] Option.none
  refine ⟨?_, ?_⟩
  · rw [h.1]; rfl
  · have h2 := (h.2 (by decide)).1
    rw [h2]
    rfl

/-- On a list of ungrouped options, the tagging loop succeeds and every
produced option carries the fresh group. -/
theorem tagAddedOptions_clean (grp : GroupMarker) (hid : Bool) : ∀ d : List Param,
    (∀ p ∈ d, isUngroupedOpt p = true) →
    ∃ os, tagAddedOptions grp hid d = Except.ok os ∧ ∀ o ∈ os, o.group = Option.some grp := by
  intro d
  induction d with
  | nil =>
    intro _
    exact ⟨[], rfl, by intro o ho; cases ho⟩
  | cons p rest ih =>
    intro h
    have hp := h p (List.mem_cons_self p rest)
    cases p with
    | argument a => simp [isUngroupedOpt] at hp
    | opt o =>
      rcases ih (fun q hq => h q (List.mem_cons_of_mem _ hq)) with ⟨os, hos, hall⟩
      have hgroup : o.group = Option.none := by
        simpa [isUngroupedOpt, Option.isNone_iff_eq_none] using hp
      refine ⟨{ o with group := Option.some grp, hidden := hid || o.hidden } :: os, ?_, ?_⟩
      · simp [tagAddedOptions, hgroup, hos]
      · intro o2 ho2
        rcases List.mem_cons.mp ho2 with heq | hm
        · rw [heq]
        · exact hall o2 hm

/-- Applying a list of clean option decorators appends their tagged
options to the parameter list, every one carrying the fresh group. -/
theorem applyGroupDecorators_clean (grp : GroupMarker) (hid : Bool) : ∀ (ds : List (List Param)) (cli : List Param),
    (∀ d ∈ ds, ∀ p ∈ d, isUngroupedOpt p = true) →
    ∃ extra : List ClickOption,
      applyGroupDecorators grp hid cli ds = Except.ok (cli ++ extra.map Param.opt)
      ∧ ∀ o ∈ extra, o.group = Option.some grp := by
  intro ds
  induction ds with
  | nil =>
    intro cli _
    exact ⟨[], by simp [applyGroupDecorators], by intro o ho; cases ho⟩
  | cons d rest ih =>
    intro cli h
    rcases tagAddedOptions_clean grp hid d (h d (List.mem_cons_self d rest)) with ⟨os, hos, hallos⟩
    rcases ih (cli ++ os.map Param.opt) (fun d2 h2 => h d2 (List.mem_cons_of_mem d h2)) with ⟨extra, hex, hallex⟩
    refine ⟨os ++ extra, ?_, ?_⟩
    · simp only [applyGroupDecorators, hos]
      rw [hex]
      simp [List.append_assoc]
    · intro o ho
      rcases List.mem_append.mp ho with hm | hm
      · exact hallos o hm
      · exact hallex o hm

/-- The inserted option is present under its key after insertion. -/
theorem memKV_insert_self : ∀ (gs : List (GroupMarker × List ClickOption)) (m : GroupMarker) (o : ClickOption),
    memKV (insertGrouped gs m o) m o := by
  intro gs m o
  induction gs with
  | nil => exact ⟨[o], by simp [insertGrouped], by simp⟩
  | cons p rest ih =>
    rcases p with ⟨m2, os⟩
    by_cases h : m2 = m
    · subst h
      refine ⟨os ++ [o], ?_, ?_⟩
      · simp [insertGrouped]
      · simp
    · rcases ih with ⟨os2, hmem, ho⟩
      refine ⟨os2, ?_, ho⟩
      simp only [insertGrouped, if_neg h]
      exact List.mem_cons_of_mem _ hmem

/-- Insertion preserves every existing key membership. -/
theorem memKV_insert_mono : ∀ (gs : List (GroupMarker × List ClickOption)) (m2 : GroupMarker) (o2 : ClickOption) (m : GroupMarker) (o : ClickOption),
    memKV gs m o → memKV (insertGrouped gs m2 o2) m o := by
  intro gs m2 o2 m o
  induction gs with
  | nil => rintro ⟨os, hmem, _⟩; cases hmem
  | cons p rest ih =>
    rcases p with ⟨m3, os3⟩
    rintro ⟨os, hmem, ho⟩
    rcases List.mem_cons.mp hmem with heq | hmem2
    · have hm : m = m3 := congrArg Prod.fst heq
      have hos : os = os3 := congrArg Prod.snd heq
      subst hm
      subst hos
      by_cases h : m = m2
      · refine ⟨os ++ [o2], ?_, List.mem_append_left _ ho⟩
        simp only [insertGrouped, if_pos h]
        exact List.mem_cons_self _ _
      · refine ⟨os, ?_, ho⟩
        simp only [insertGrouped, if_neg h]
        exact List.mem_cons_self _ _
    · by_cases h : m3 = m2
      · refine ⟨os, ?_, ho⟩
        simp only [insertGrouped, if_pos h]
        exact List.mem_cons_of_mem _ hmem2
      · rcases ih ⟨os, hmem2, ho⟩ with ⟨os4, hmem4, ho4⟩
        refine ⟨os4, ?_, ho4⟩
        simp only [insertGrouped, if_neg h]
        exact List.mem_cons_of_mem _ hmem4

/-- The grouping loop preserves every membership already present in its
accumulator. -/
theorem groupParamsAux_memKV_mono : ∀ (rest : List Param) (args : List ClickArgument) (gs : List (GroupMarker × List ClickOption)) (ung : List ClickOption) (m : GroupMarker) (o : ClickOption),
    memKV gs m o → memKV (groupParamsAux args gs ung rest).2.1 m o := by
  intro rest
  induction rest with
  | nil => intro args gs ung m o h; exact h
  | cons p rest2 ih =>
    intro args gs ung m o h
    cases p with
    | argument a => exact ih _ _ _ _ _ h
    | opt o2 =>
      cases hg : o2.group with
      | none =>
        simp only [groupParamsAux, hg]
        exact ih _ _ _ _ _ h
      | some m2 =>
        simp only [groupParamsAux, hg]
        exact ih _ _ _ _ _ (memKV_insert_mono _ _ _ _ _ h)

/-- Every grouped option among the remaining params ends up registered
under its group key. -/
theorem groupParamsAux_adds : ∀ (rest : List Param) (args : List ClickArgument) (gs : List (GroupMarker × List ClickOption)) (ung : List ClickOption) (m : GroupMarker) (o : ClickOption),
    Param.opt o ∈ rest → o.group = Option.some m →
    memKV (groupParamsAux args gs ung rest).2.1 m o := by
  intro rest
  induction rest with
  | nil => intro args gs ung m o hmem _; cases hmem
  | cons p rest2 ih =>
    intro args gs ung m o hmem hgrp
    rcases List.mem_cons.mp hmem with heq | hmem2
    · cases heq
      simp only [groupParamsAux, hgrp]
      exact groupParamsAux_memKV_mono _ _ _ _ _ _ (memKV_insert_self _ _ _)
    · cases p with
      | argument a =>
        simp only [groupParamsAux]
        exact ih _ _ _ _ _ hmem2 hgrp
      | opt o2 =>
        cases hg : o2.group with
        | none =>
          simp only [groupParamsAux, hg]
          exact ih _ _ _ _ _ hmem2 hgrp
        | some m2 =>
          simp only [groupParamsAux, hg]
          exact ih _ _ _ _ _ hmem2 hgrp

/-- The options setter does not change the option names it stores. -/
theorem setOptions_names (g : OptionGroup) (os : List ClickOption) :
    ((g.setOptions os).options).map ClickOption.name = os.map ClickOption.name := by
  simp only [OptionGroup.setOptions]
  by_cases hg : g.hidden
  · simp only [hg, if_true, List.map_map]
    rfl
  · by_cases hall : os.all (fun o => o.hidden)
    · simp [hg, hall]
    · simp [hg, hall]

/-- A grouped option of a command's params appears in the options of the
group `_group_params` builds for its marker. -/
theorem group_params_contains : ∀ (params : List Param) (m : GroupMarker) (o : ClickOption),
    Param.opt o ∈ params → o.group = Option.some m →
    ∃ g ∈ (group_params params).2.1, g.title = m.title ∧ o.name ∈ g.options.map ClickOption.name := by
  intro params m o hmem hgrp
  rcases groupParamsAux_adds params [] [] [] m o hmem hgrp with ⟨os, hkv, ho⟩
  refine ⟨(OptionGroup.ofMarker m).setOptions os, ?_, ?_, ?_⟩
  · simp only [group_params]
    exact List.mem_map.mpr ⟨(m, os), hkv, rfl⟩
  · rw [setOptions_title]
    rfl
  · rw [setOptions_names]
    exact List.mem_map.mpr ⟨o, ho, rfl⟩

/-- C5: applying @option_group(title, ...) tags every option added by the
supplied decorators with one freshly created group carrying the given
title, help, constraint and hidden flag, leaves the previously collected
parameters unchanged, adds no option to the group object at decoration
time, and the group's options are filled only when a command later
partitions its parameters by group (then every tagged option lands in its
group's options). -/
theorem C5_option_group_fresh_marker : ∀ (t : String) (ds : List (List Param)) (h : Option String) (c : Option Constraint) (hid : Bool) (cb : Option Nat) (gid : Nat) (f : List Param),
    ds ≠ [] →
    (∀ d ∈ ds, ∀ p ∈ d, isUngroupedOpt p = true) →
    (∃ ps : List Param,
      option_group_decorator (TitleArg.ofString t) ds h c hid cb gid f =
        Except.ok (⟨gid, t, h, c, hid, cb⟩, ps)
      ∧ (OptionGroup.ofMarker ⟨gid, t, h, c, hid, cb⟩).options = []
      ∧ ps.take f.length = f
      ∧ (∀ p ∈ ps.drop f.length, ∃ o : ClickOption,
           p = Param.opt o ∧ o.group = Option.some ⟨gid, t, h, c, hid, cb⟩))
    ∧ (∀ (params : List Param) (m : GroupMarker) (o : ClickOption),
        Param.opt o ∈ params → o.group = Option.some m →
        ∃ g ∈ (group_params params).2.1, g.title = m.title ∧ o.name ∈ g.options.map ClickOption.name) := by
  intro t ds h c hid cb gid f hne hclean
  constructor
  · rcases applyGroupDecorators_clean ⟨gid, t, h, c, hid, cb⟩ hid ds.reverse f
      (fun d hd => hclean d (List.mem_reverse.mp hd)) with ⟨extra, hex, hallex⟩
    refine ⟨f ++ extra.map Param.opt, ?_, rfl, ?_, ?_⟩
    · simp only [option_group_decorator]
      rw [if_neg (by simpa [List.isEmpty_iff] using hne)]
      rw [hex]
    · exact List.take_left f (extra.map Param.opt)
    · intro p hp
      rw [List.drop_left] at hp
      rcases List.mem_map.mp hp with ⟨o, ho, heq⟩
      exact ⟨o, heq.symm, hallex o ho⟩
  · exact group_params_contains

/-- Witness for C5: a group decorator with one option applied to a bare
function. -/
theorem C5_witness :
    (∃ ps : List Param,
      option_group_decorator (TitleArg.ofString "G") [[Param.opt optA]]
          Option.none Option.none false Option.none 0 [] =
        Except.ok (⟨0, "G", Option.none, Option.none, false, Option.none⟩, ps)
      ∧ (OptionGroup.ofMarker ⟨0, "G", Option.none, Option.none, false, Option.none⟩).options = []
      ∧ ps.take (List.length ([] : List Param)) = ([] : List Param)
      ∧ (∀ p ∈ ps.drop (List.length ([] : List Param)), ∃ o : ClickOption,
           p = Param.opt o ∧ o.group = Option.some ⟨0, "G", Option.none, Option.none, false, Option.none⟩))
    ∧ (∀ (params : List Param) (m : GroupMarker) (o : ClickOption),
        Param.opt o ∈ params → o.group = Option.some m →
        ∃ g ∈ (group_params params).2.1, g.title = m.title ∧ o.name ∈ g.options.map ClickOption.name) :=
  C5_option_group_fresh_marker "G" [[Param.opt optA]] Option.none Option.none false Option.none 0 []
    (by decide) (by decide)

/-- A clean run of already-ungrouped options before an offending
parameter propagates the error the offending parameter raises. -/
theorem tagAddedOptions_append_error (grp : GroupMarker) (hid : Bool) : ∀ (pre : List Param),
    (∀ p ∈ pre, isUngroupedOpt p = true) →
    ∀ (tail : List Param) (e : DecorError), tagAddedOptions grp hid tail = Except.error e →
    tagAddedOptions grp hid (pre ++ tail) = Except.error e := by
  intro pre
  induction pre with
  | nil => intro _ tail e he; simpa using he
  | cons p rest ih =>
    intro h tail e he
    have hp := h p (List.mem_cons_self p rest)
    cases p with
    | argument a => simp [isUngroupedOpt] at hp
    | opt o =>
      have hgroup : o.group = Option.none := by
        simpa [isUngroupedOpt, Option.isNone_iff_eq_none] using hp
      have hrest := ih (fun q hq => h q (List.mem_cons_of_mem _ hq)) tail e he
      simp [tagAddedOptions, hgroup, hrest]

/-- C10: @option_group raises TypeError when a supplied decorator adds a
parameter that is not an Option, ValueError when an added option already
belongs to another group, TypeError when its first argument is not a
string, and ValueError when no option decorators are given. -/
theorem C10_option_group_errors :
    (∀ (ds : List (List Param)) (h : Option String) (c : Option Constraint) (hid : Bool) (cb : Option Nat) (gid : Nat) (f : List Param),
        option_group_decorator TitleArg.nonString ds h c hid cb gid f =
          Except.error DecorError.typeErrorTitleNotString)
    ∧ (∀ (t : String) (h : Option String) (c : Option Constraint) (hid : Bool) (cb : Option Nat) (gid : Nat) (f : List Param),
        option_group_decorator (TitleArg.ofString t) [] h c hid cb gid f =
          Except.error DecorError.valueErrorNoOptions)
    ∧ (∀ (t : String) (h : Option String) (c : Option Constraint) (hid : Bool) (cb : Option Nat) (gid : Nat) (f : List Param) (pre post : List Param) (a : ClickArgument),
        (∀ p ∈ pre, isUngroupedOpt p = true) →
        option_group_decorator (TitleArg.ofString t) [pre ++ Param.argument a :: post] h c hid cb gid f =
          Except.error DecorError.typeErrorNonOption)
    ∧ (∀ (t : String) (h : Option String) (c : Option Constraint) (hid : Bool) (cb : Option Nat) (gid : Nat) (f : List Param) (pre post : List Param) (o : ClickOption) (m : GroupMarker),
        (∀ p ∈ pre, isUngroupedOpt p = true) → o.group = Option.some m →
        option_group_decorator (TitleArg.ofString t) [pre ++ Param.opt o :: post] h c hid cb gid f =
          Except.error DecorError.valueErrorAlreadyGrouped) := by
  refine ⟨fun ds h c hid cb gid f => rfl, fun t h c hid cb gid f => rfl, ?_, ?_⟩
  · intro t h c hid cb gid f pre post a hclean
    have htail : tagAddedOptions ⟨gid, t, h, c, hid, cb⟩ hid (Param.argument a :: post) =
        Except.error DecorError.typeErrorNonOption := rfl
    have hall := tagAddedOptions_append_error ⟨gid, t, h, c, hid, cb⟩ hid pre hclean _ _ htail
    simp only [option_group_decorator]
    rw [if_neg (by simp)]
    simp [applyGroupDecorators, hall]
  · intro t h c hid cb gid f pre post o m hclean hgrp
    have htail : tagAddedOptions ⟨gid, t, h, c, hid, cb⟩ hid (Param.opt o :: post) =
        Except.error DecorError.valueErrorAlreadyGrouped := by
      simp [tagAddedOptions, hgrp]
    have hall := tagAddedOptions_append_error ⟨gid, t, h, c, hid, cb⟩ hid pre hclean _ _ htail
    simp only [option_group_decorator]
    rw [if_neg (by simp)]
    simp [applyGroupDecorators, hall]

/-- Witness for C10: each of the four error paths hit on a concrete
decoration. -/
theorem C10_witness :
    option_group_decorator TitleArg.nonString [[Param.opt optA]] Option.none Option.none false Option.none 0 [] =
      Except.error DecorError.typeErrorTitleNotString
    ∧ option_group_decorator (TitleArg.ofString "G") [] Option.none Option.none false Option.none 0 [] =
      Except.error DecorError.valueErrorNoOptions
    ∧ option_group_decorator (TitleArg.ofString "G") [[Param.argument argEx]] Option.none Option.none false Option.none 0 [] =
      Except.error DecorError.typeErrorNonOption
    ∧ option_group_decorator (TitleArg.ofString "G") [[Param.opt optGrouped]] Option.none Option.none false Option.none 0 [] =
      Except.error DecorError.valueErrorAlreadyGrouped :=
  ⟨C10_option_group_errors.1 [[Param.opt optA]] Option.none Option.none false Option.none 0 [],
   C10_option_group_errors.2.1 "G" Option.none Option.none false Option.none 0 [],
   C10_option_group_errors.2.2.1 "G" Option.none Option.none false Option.none 0 [] [] [] argEx
     (by intro p hp; cases hp),
   C10_option_group_errors.2.2.2 "G" Option.none Option.none false Option.none 0 [] [] [] optGrouped
     { gid := 1, title := "H", help := Option.none, constraint := Option.none,
       hidden := false, post_parse_callback := Option.none }
     (by intro p hp; cases hp) rfl⟩

end Cloup
